import Mathlib

/-!
Verification of the local CI/CD pipeline runner of
`repo_github_manager` (module `core/ci_cd.py`) against its
natural-language specification.

The Python module is embedded shallowly:

* `CommandInfo` is the parsed step dictionary built by `get_command_list`
  (keys `name`, `command`, `working_dir`, `allow_failure`, `timeout`).
* `StepResult` is the result dictionary built by `execute_command`;
  dictionary keys that are absent in some branches (`return_code`,
  `error`, `allow_failure`) are `Option`-valued with default `none`.
* The host environment (filesystem and child process) is an oracle:
  `path_exists : String → Bool` stands for `os.path.exists`, and a
  `ProcBehavior` value records how the launched process would behave
  (normal completion with an exit code, a `subprocess.TimeoutExpired`,
  or some other raised exception), together with the measured wall-clock
  duration of that interaction.
* `run_pipeline_steps` is the step loop of `run_ci_cd_pipeline`; the
  per-step process behaviour is supplied as an oracle indexed by the
  step position.
-/

/-- One entry of the command list built by `get_command_list`:
`name`, `command` (the YAML `run` field), `working_dir`, `allow_failure`
and `timeout` with the source defaults. -/
structure CommandInfo where
  name : String
  command : String
  working_dir : String := ""
  allow_failure : Bool := false
  timeout : Nat := 300
  deriving Repr, DecidableEq

/-- The result dictionary built by `execute_command`.  Keys that some
branches of the source omit are `Option`-valued and default to `none`. -/
structure StepResult where
  name : String
  success : Bool
  return_code : Option Int := none
  stdout : String := ""
  stderr : String := ""
  error : Option String := none
  duration : Nat := 0
  allow_failure : Option Bool := none
  deriving Repr, DecidableEq

/-- Oracle describing how the child process spawned for one step would
behave: normal completion with an exit code and captured output, a
timeout, or a raised exception (e.g. a launch failure).  Each carries
the wall-clock duration measured by the source at the moment the
outcome is observed. -/
inductive ProcBehavior where
  | completed (returncode : Int) (stdout stderr : String) (duration : Nat)
  | timedOut (duration : Nat)
  | raised (msg : String) (duration : Nat)
  deriving Repr, DecidableEq

/-- Working-directory resolution of `execute_command`: `os.path.join`
of the repository root with `working_dir` when the latter is non-empty
(Python truthiness of the string), else the repository root itself. -/
def resolve_cwd (repo_path working_dir : String) : String :=
  if working_dir = "" then repo_path else repo_path ++ "/" ++ working_dir

/-- Embedding of `execute_command` (`core/ci_cd.py`): resolve the
working directory; if it does not exist return the hard-failure
dictionary with `success = False`; otherwise translate the process
outcome exactly as the source does (normal completion:
`success = returncode == 0 or allow_failure`; timeout and exception:
`success = allow_failure`).  The returned pair is the source's
`(success, result)` tuple. -/
def execute_command (command_info : CommandInfo) (repo_path : String)
    (path_exists : String → Bool) (proc : ProcBehavior) : Bool × StepResult :=
  let name := command_info.name
  let allow_failure := command_info.allow_failure
  let timeout := command_info.timeout
  let cwd := resolve_cwd repo_path command_info.working_dir
  if path_exists cwd = false then
    let error_msg := "작업 디렉토리가 존재하지 않습니다: " ++ cwd
    (false,
      { name := name, success := false, error := some error_msg,
        stdout := "", stderr := error_msg, duration := 0 })
  else
    match proc with
    | ProcBehavior.completed returncode stdout stderr dur =>
      let success := returncode == 0 || allow_failure
      (success,
        { name := name, success := success, return_code := some returncode,
          stdout := stdout, stderr := stderr, duration := dur,
          allow_failure := some allow_failure })
    | ProcBehavior.timedOut dur =>
      let error_msg := "명령어 실행 타임아웃 (" ++ toString timeout ++ "초)"
      (allow_failure,
        { name := name, success := allow_failure, error := some error_msg,
          stdout := "", stderr := error_msg, duration := dur,
          allow_failure := some allow_failure })
    | ProcBehavior.raised msg dur =>
      let error_msg := "명령어 실행 중 오류 발생: " ++ msg
      (allow_failure,
        { name := name, success := allow_failure, error := some error_msg,
          stdout := "", stderr := msg, duration := dur,
          allow_failure := some allow_failure })

/-- Python exceptions that the `try` block of `execute_command` can
raise: `subprocess.TimeoutExpired` from `communicate`, or any other
exception (launch failure, communication error). -/
inductive PyRaise where
  | timeoutExpired (duration : Nat)
  | exn (msg : String) (duration : Nat)
  deriving Repr, DecidableEq

/-- The `Popen`/`communicate` interaction of the `try` block, as a
fallible computation: the process outcome is either the completed
process data `(returncode, stdout, stderr, duration)` or a raised
Python exception. -/
def popen_communicate (proc : ProcBehavior) :
    Except PyRaise (Int × String × String × Nat) :=
  match proc with
  | ProcBehavior.completed returncode stdout stderr dur =>
    Except.ok (returncode, stdout, stderr, dur)
  | ProcBehavior.timedOut dur => Except.error (PyRaise.timeoutExpired dur)
  | ProcBehavior.raised msg dur => Except.error (PyRaise.exn msg dur)

/-- `execute_command` with its exception structure made explicit: the
result type is `Except PyRaise _`, so an exception the function failed
to catch would surface as `Except.error`.  The two `except` clauses of
the source (`subprocess.TimeoutExpired` and `Exception`) handle the two
`PyRaise` constructors, each producing an `Except.ok` result
dictionary. -/
def execute_command_exc (command_info : CommandInfo) (repo_path : String)
    (path_exists : String → Bool) (proc : ProcBehavior) :
    Except PyRaise (Bool × StepResult) :=
  let name := command_info.name
  let allow_failure := command_info.allow_failure
  let timeout := command_info.timeout
  let cwd := resolve_cwd repo_path command_info.working_dir
  if path_exists cwd = false then
    let error_msg := "작업 디렉토리가 존재하지 않습니다: " ++ cwd
    Except.ok (false,
      { name := name, success := false, error := some error_msg,
        stdout := "", stderr := error_msg, duration := 0 })
  else
    match popen_communicate proc with
    | Except.ok (returncode, stdout, stderr, dur) =>
      let success := returncode == 0 || allow_failure
      Except.ok (success,
        { name := name, success := success, return_code := some returncode,
          stdout := stdout, stderr := stderr, duration := dur,
          allow_failure := some allow_failure })
    | Except.error (PyRaise.timeoutExpired dur) =>
      let error_msg := "명령어 실행 타임아웃 (" ++ toString timeout ++ "초)"
      Except.ok (allow_failure,
        { name := name, success := allow_failure, error := some error_msg,
          stdout := "", stderr := error_msg, duration := dur,
          allow_failure := some allow_failure })
    | Except.error (PyRaise.exn msg dur) =>
      let error_msg := "명령어 실행 중 오류 발생: " ++ msg
      Except.ok (allow_failure,
        { name := name, success := allow_failure, error := some error_msg,
          stdout := "", stderr := msg, duration := dur,
          allow_failure := some allow_failure })

/-- One raw step mapping of the YAML document, as seen by
`get_command_list`: each field is `none` when the key is absent from
the mapping. -/
structure RawStep where
  name : Option String := none
  run : Option String := none
  working_dir : Option String := none
  allow_failure : Option Bool := none
  timeout : Option Nat := none
  deriving Repr, DecidableEq

/-- The parsed configuration document handed to `get_command_list`:
either falsy (`None` or an empty mapping, Python `if not config`), or a
mapping whose `steps` key holds the given list (an absent `steps` key
is the empty list, per `config.get('steps', [])`). -/
inductive ConfigDoc where
  | empty
  | withSteps (steps : List RawStep)
  deriving Repr, DecidableEq

/-- The `for idx, step in enumerate(steps)` loop of `get_command_list`:
the first step missing `name` aborts with the 1-based index message,
the first step missing `run` aborts with the name-based message, and
otherwise each step becomes a command dictionary with the source
defaults (`working_dir = ''`, `allow_failure = False`,
`timeout = 300`). -/
def build_commands : List RawStep → Nat → Except String (List CommandInfo)
  | [], _ => Except.ok []
  | step :: rest, idx =>
    match step.name with
    | none => Except.error ("단계 " ++ toString (idx + 1) ++ "에 이름이 없습니다.")
    | some nm =>
      match step.run with
      | none => Except.error ("단계 '" ++ nm ++ "'에 실행 명령어가 없습니다.")
      | some runCmd =>
        match build_commands rest (idx + 1) with
        | Except.error e => Except.error e
        | Except.ok cs =>
          Except.ok
            ({ name := nm, command := runCmd,
               working_dir := step.working_dir.getD "",
               allow_failure := step.allow_failure.getD false,
               timeout := step.timeout.getD 300 } :: cs)

/-- Embedding of `get_command_list` (`core/ci_cd.py`).  The source
returns a `(bool, list-or-message)` tuple whose boolean is determined
by which branch of the union is returned; this is modelled as
`Except String (List CommandInfo)` (`Except.error` ↔ `(False, msg)`,
`Except.ok` ↔ `(True, commands)`). -/
def get_command_list (config : ConfigDoc) : Except String (List CommandInfo) :=
  match config with
  | ConfigDoc.empty => Except.error "CI/CD 설정이 비어 있습니다."
  | ConfigDoc.withSteps steps =>
    if steps.isEmpty then
      Except.error "CI/CD 설정에 실행 단계가 정의되지 않았습니다."
    else build_commands steps 0

/-- Specification-side description of what one successfully parsed step
becomes: the command dictionary with the document's values and the
spec's defaults applied (`working_dir = ""`, `allow_failure = false`,
`timeout = 300`).  Compared against `get_command_list` in the claims
about parsing. -/
def step_to_command (s : RawStep) : CommandInfo :=
  { name := s.name.getD "", command := s.run.getD "",
    working_dir := s.working_dir.getD "",
    allow_failure := s.allow_failure.getD false,
    timeout := s.timeout.getD 300 }

/-- The step loop of `run_ci_cd_pipeline`: execute each command in
order, append its result, and break with `pipeline_success = False` as
soon as a command's returned success flag is false and its
`allow_failure` is false.  `idx` is the position of the first command
of the remaining list in the whole pipeline, used to index the
process-behaviour oracle. -/
def run_pipeline_steps (repo_path : String) (path_exists : String → Bool)
    (procs : Nat → ProcBehavior) : List CommandInfo → Nat → Bool × List StepResult
  | [], _ => (true, [])
  | command_info :: rest, idx =>
    let sr := execute_command command_info repo_path path_exists (procs idx)
    if !sr.1 && !command_info.allow_failure then
      (false, [sr.2])
    else
      let r := run_pipeline_steps repo_path path_exists procs rest (idx + 1)
      (r.1, sr.2 :: r.2)

/-- Embedding of `run_ci_cd_pipeline` (`core/ci_cd.py`): the outcome of
`load_ci_config` is supplied as an oracle (file reading is external
I/O); a load or parse failure is returned as `(False, message)`, and
otherwise the step loop runs over the extracted command list. -/
def run_ci_cd_pipeline (load_result : Except String ConfigDoc)
    (repo_path : String) (path_exists : String → Bool)
    (procs : Nat → ProcBehavior) : Bool × (List StepResult ⊕ String) :=
  match load_result with
  | Except.error msg => (false, Sum.inr msg)
  | Except.ok config =>
    match get_command_list config with
    | Except.error msg => (false, Sum.inr msg)
    | Except.ok commands =>
      let r := run_pipeline_steps repo_path path_exists procs commands 0
      (r.1, Sum.inl r.2)

/-- Specification-side description of the result list when no halt
occurs: the results of all commands, in input order, each produced by
`execute_command` at its own position. -/
def map_step_results (repo_path : String) (path_exists : String → Bool)
    (procs : Nat → ProcBehavior) : List CommandInfo → Nat → List StepResult
  | [], _ => []
  | c :: cs, idx =>
    (execute_command c repo_path path_exists (procs idx)).2 ::
      map_step_results repo_path path_exists procs cs (idx + 1)

/-- Specification-side halting condition at position `j` of the command
list (positions counted from `idx`): the step's result has
`succeeded = false` and its spec has `allow_failure = false`. -/
def halts_at (repo_path : String) (path_exists : String → Bool)
    (procs : Nat → ProcBehavior) (commands : List CommandInfo)
    (idx j : Nat) : Bool :=
  match commands.get? j with
  | none => false
  | some c =>
    !(execute_command c repo_path path_exists (procs (idx + j))).2.success &&
      !c.allow_failure

/-! ### Helper lemmas -/

/-- The boolean returned as the first component of `execute_command` is
always the `success` field of the returned result dictionary. -/
theorem execute_command_fst (c : CommandInfo) (repo : String) (fs : String → Bool)
    (b : ProcBehavior) :
    (execute_command c repo fs b).1 = (execute_command c repo fs b).2.success := by
  cases h : fs (resolve_cwd repo c.working_dir) <;> cases b <;> simp [execute_command, h]

/-- Unfolding of `halts_at` at the head of the command list. -/
theorem halts_at_cons_zero (repo : String) (fs : String → Bool)
    (procs : Nat → ProcBehavior) (c : CommandInfo) (cs : List CommandInfo) (idx : Nat) :
    halts_at repo fs procs (c :: cs) idx 0 =
      (!(execute_command c repo fs (procs idx)).2.success && !c.allow_failure) := rfl

/-- Shifting `halts_at` past the head of the command list. -/
theorem halts_at_cons_succ (repo : String) (fs : String → Bool)
    (procs : Nat → ProcBehavior) (c : CommandInfo) (cs : List CommandInfo) (idx j : Nat) :
    halts_at repo fs procs (c :: cs) idx (j + 1) =
      halts_at repo fs procs cs (idx + 1) j := by
  unfold halts_at
  have harith : idx + (j + 1) = idx + 1 + j := by omega
  simp [List.get?, harith]

/-- When no position of the command list satisfies the halting
condition, the loop of `run_ci_cd_pipeline` executes every command and
reports overall success. -/
theorem run_pipeline_no_halt (repo : String) (fs : String → Bool)
    (procs : Nat → ProcBehavior) :
    ∀ (cmds : List CommandInfo) (idx : Nat),
      (∀ j, j < cmds.length → halts_at repo fs procs cmds idx j = false) →
      run_pipeline_steps repo fs procs cmds idx =
        (true, map_step_results repo fs procs cmds idx) := by
  intro cmds
  induction cmds with
  | nil => intro idx _; rfl
  | cons c cs ih =>
    intro idx h
    have h0 := h 0 (by simp)
    rw [halts_at_cons_zero] at h0
    have hrec : run_pipeline_steps repo fs procs cs (idx + 1) =
        (true, map_step_results repo fs procs cs (idx + 1)) := by
      apply ih
      intro j hj
      have := h (j + 1) (by simpa using Nat.succ_lt_succ hj)
      rwa [halts_at_cons_succ] at this
    simp only [run_pipeline_steps, map_step_results]
    rw [execute_command_fst, h0, hrec]
    simp

/-- When position `j` is the first position of the command list
satisfying the halting condition, the loop of `run_ci_cd_pipeline`
stops right after step `j`: the result list is the results of steps
`0..j` and overall success is false. -/
theorem run_pipeline_halt (repo : String) (fs : String → Bool)
    (procs : Nat → ProcBehavior) :
    ∀ (cmds : List CommandInfo) (idx j : Nat),
      halts_at repo fs procs cmds idx j = true →
      (∀ k, k < j → halts_at repo fs procs cmds idx k = false) →
      run_pipeline_steps repo fs procs cmds idx =
        (false, map_step_results repo fs procs (cmds.take (j + 1)) idx) := by
  intro cmds
  induction cmds with
  | nil => intro idx j hj _; simp [halts_at, List.get?] at hj
  | cons c cs ih =>
    intro idx j hj hk
    cases j with
    | zero =>
      rw [halts_at_cons_zero] at hj
      simp only [run_pipeline_steps, List.take, map_step_results]
      rw [execute_command_fst, hj]
      simp
    | succ j' =>
      have h0 := hk 0 (Nat.succ_pos _)
      rw [halts_at_cons_zero] at h0
      rw [halts_at_cons_succ] at hj
      have hrec : run_pipeline_steps repo fs procs cs (idx + 1) =
          (false, map_step_results repo fs procs (cs.take (j' + 1)) (idx + 1)) := by
        apply ih (idx + 1) j' hj
        intro k hkk
        have := hk (k + 1) (Nat.succ_lt_succ hkk)
        rwa [halts_at_cons_succ] at this
      simp only [run_pipeline_steps, List.take_succ_cons, map_step_results]
      rw [execute_command_fst, h0, hrec]
      simp

/-- When every raw step carries both `name` and `run`, `build_commands`
succeeds and maps each step to its command dictionary, in document
order. -/
theorem build_commands_valid :
    ∀ (steps : List RawStep) (idx : Nat),
      (∀ s ∈ steps, s.name.isSome ∧ s.run.isSome) →
      build_commands steps idx = Except.ok (steps.map step_to_command)
  | [], _, _ => rfl
  | s :: rest, idx, h => by
    obtain ⟨hn, hr⟩ := h s (List.mem_cons_self s rest)
    obtain ⟨nm, hnm⟩ := Option.isSome_iff_exists.mp hn
    obtain ⟨rc, hrc⟩ := Option.isSome_iff_exists.mp hr
    have hrest := build_commands_valid rest (idx + 1)
      (fun t ht => h t (List.mem_cons_of_mem _ ht))
    unfold build_commands
    rw [hnm, hrc, hrest]
    simp [step_to_command, hnm, hrc]

/-- An error produced past a prefix of well-formed raw steps propagates
to the front of `build_commands`, with the index shifted by the length
of the prefix. -/
theorem build_commands_error_append :
    ∀ (pre l : List RawStep) (idx : Nat) (e : String),
      (∀ t ∈ pre, t.name.isSome ∧ t.run.isSome) →
      build_commands l (idx + pre.length) = Except.error e →
      build_commands (pre ++ l) idx = Except.error e
  | [], l, idx, e, _, hl => by simpa using hl
  | t :: pre, l, idx, e, h, hl => by
    obtain ⟨hn, hr⟩ := h t (List.mem_cons_self t pre)
    obtain ⟨nm, hnm⟩ := Option.isSome_iff_exists.mp hn
    obtain ⟨rc, hrc⟩ := Option.isSome_iff_exists.mp hr
    have hrec : build_commands (pre ++ l) (idx + 1) = Except.error e := by
      apply build_commands_error_append pre l (idx + 1) e
        (fun u hu => h u (List.mem_cons_of_mem _ hu))
      have harith : idx + 1 + pre.length = idx + (t :: pre).length := by
        simp [List.length_cons]; omega
      rw [harith]; exact hl
    show build_commands (t :: (pre ++ l)) idx = Except.error e
    unfold build_commands
    rw [hnm, hrc, hrec]

/-- A steps list with at least one element is not empty for the
`if not steps` check of `get_command_list`. -/
theorem isEmpty_append_cons (pre post : List RawStep) (s : RawStep) :
    (pre ++ s :: post).isEmpty = false := by
  cases pre <;> rfl

/-! ### Claim theorems -/

/-- Claim C1, counterexample: the claim says a step whose resolved
working directory does not exist always halts the pipeline with overall
success false, even when `allow_failure` is true.  In the code the halt
check still consults `allow_failure`, so a two-step pipeline whose
first step has a missing working directory and `allow_failure = true`
executes the second step and finishes with overall success `true`,
while the first result has `success = false`. -/
theorem claim_C1_counterexample :
    (run_pipeline_steps "/repo1" (fun p => p == "/repo1")
        (fun _ => ProcBehavior.completed 0 "" "" 1)
        [{ name := "bad", command := "c1", working_dir := "ghost", allow_failure := true },
         { name := "ok", command := "c2" }] 0).1 = true
    ∧ ((run_pipeline_steps "/repo1" (fun p => p == "/repo1")
        (fun _ => ProcBehavior.completed 0 "" "" 1)
        [{ name := "bad", command := "c1", working_dir := "ghost", allow_failure := true },
         { name := "ok", command := "c2" }] 0).2.map StepResult.success) = [false, true] := by
  constructor <;> decide

/-- Claim C1, amended: a step whose resolved working directory does not
exist always gets a result with `succeeded = false` regardless of
`allow_failure`; the pipeline halts at that step (overall success
false, later steps never executed) only when the step's
`allow_failure` is false. -/
theorem claim_C1_amended (repo : String) (fs : String → Bool)
    (procs : Nat → ProcBehavior) (c : CommandInfo) (rest : List CommandInfo) (idx : Nat)
    (hmiss : fs (resolve_cwd repo c.working_dir) = false) :
    (execute_command c repo fs (procs idx)).2.success = false
    ∧ (c.allow_failure = false →
        run_pipeline_steps repo fs procs (c :: rest) idx =
          (false, [(execute_command c repo fs (procs idx)).2])) := by
  have h1 : (execute_command c repo fs (procs idx)).1 = false := by
    simp [execute_command, hmiss]
  constructor
  · rw [← execute_command_fst]; exact h1
  · intro haf
    simp only [run_pipeline_steps]
    rw [h1, haf]
    simp

/-- Claim C1, witness: the amended theorem applied to a concrete
one-step pipeline whose working directory is missing and whose
`allow_failure` is false. -/
theorem claim_C1_amended_witness :
    ((fun p => p == "/w") (resolve_cwd "/w" "gone") = false)
    ∧ (((execute_command { name := "g", command := "x", working_dir := "gone" } "/w"
          (fun p => p == "/w") ((fun _ => ProcBehavior.completed 0 "" "" 1) 0)).2.success = false)
      ∧ (({ name := "g", command := "x", working_dir := "gone" } : CommandInfo).allow_failure = false →
        run_pipeline_steps "/w" (fun p => p == "/w") (fun _ => ProcBehavior.completed 0 "" "" 1)
            [{ name := "g", command := "x", working_dir := "gone" }] 0 =
          (false, [(execute_command { name := "g", command := "x", working_dir := "gone" } "/w"
            (fun p => p == "/w") ((fun _ => ProcBehavior.completed 0 "" "" 1) 0)).2]))) :=
  ⟨by decide,
   claim_C1_amended "/w" (fun p => p == "/w") (fun _ => ProcBehavior.completed 0 "" "" 1)
     { name := "g", command := "x", working_dir := "gone" } [] 0 (by decide)⟩

/-- Claim C2, counterexample: the claim extends the succeeded-iff law
to the directory-missing condition, but a step with a missing working
directory and `allow_failure = true` gets `success = false` while the
right-hand side of the claimed equivalence (`exit_code = 0` or
`allow_failure`) holds, so the equivalence fails there. -/
theorem claim_C2_counterexample :
    ((execute_command
        { name := "t", command := "c", working_dir := "nodir", allow_failure := true }
        "/base" (fun _ => false) (ProcBehavior.completed 0 "" "" 1)).2.success = false)
    ∧ ¬ (((execute_command
        { name := "t", command := "c", working_dir := "nodir", allow_failure := true }
        "/base" (fun _ => false) (ProcBehavior.completed 0 "" "" 1)).2.success = true) ↔
      (((execute_command
        { name := "t", command := "c", working_dir := "nodir", allow_failure := true }
        "/base" (fun _ => false) (ProcBehavior.completed 0 "" "" 1)).2.return_code = some 0)
        ∨ ({ name := "t", command := "c", working_dir := "nodir", allow_failure := true }
            : CommandInfo).allow_failure = true)) := by
  constructor <;> decide

/-- Claim C2, amended: whenever the resolved working directory exists
(so the terminal condition is a normal exit, a timeout or an
exception), `succeeded` is true iff `exit_code = 0` or `allow_failure`
is true — in particular never true for a launch failure with
`allow_failure = false`; when the directory is missing, `succeeded` is
false regardless of `allow_failure`. -/
theorem claim_C2_amended (c : CommandInfo) (repo : String) (fs : String → Bool)
    (b : ProcBehavior) :
    (fs (resolve_cwd repo c.working_dir) = true →
      ((execute_command c repo fs b).2.success = true ↔
        ((execute_command c repo fs b).2.return_code = some 0 ∨ c.allow_failure = true)))
    ∧ (fs (resolve_cwd repo c.working_dir) = false →
      (execute_command c repo fs b).2.success = false) := by
  constructor
  · intro h
    cases b <;> simp [execute_command, h]
  · intro h
    cases b <;> simp [execute_command, h]

/-- Claim C2, witness: the amended equivalence evaluated on a concrete
step that exits 1 with `allow_failure = true`. -/
theorem claim_C2_amended_witness :
    ((fun _ : String => true) (resolve_cwd "/r" "") = true)
    ∧ ((execute_command { name := "n", command := "c", allow_failure := true } "/r"
          (fun _ => true) (ProcBehavior.completed 1 "o" "e" 2)).2.success = true ↔
        ((execute_command { name := "n", command := "c", allow_failure := true } "/r"
          (fun _ => true) (ProcBehavior.completed 1 "o" "e" 2)).2.return_code = some 0
          ∨ ({ name := "n", command := "c", allow_failure := true } : CommandInfo).allow_failure = true)) :=
  ⟨rfl,
   (claim_C2_amended { name := "n", command := "c", allow_failure := true } "/r"
     (fun _ => true) (ProcBehavior.completed 1 "o" "e" 2)).1 rfl⟩

/-- Claim C3: the runner executes steps in document order, appending
each result; if no position satisfies the halting condition (result
`succeeded = false` and spec `allow_failure = false`) all steps appear
in input order with overall success true; at the first halting
position `j` it stops immediately with overall success false, the
result list holding exactly the results of steps `0..j`. -/
theorem claim_C3 (repo : String) (fs : String → Bool) (procs : Nat → ProcBehavior)
    (cmds : List CommandInfo) (idx : Nat) :
    ((∀ j, j < cmds.length → halts_at repo fs procs cmds idx j = false) →
      run_pipeline_steps repo fs procs cmds idx =
        (true, map_step_results repo fs procs cmds idx))
    ∧ (∀ j, halts_at repo fs procs cmds idx j = true →
        (∀ k, k < j → halts_at repo fs procs cmds idx k = false) →
        run_pipeline_steps repo fs procs cmds idx =
          (false, map_step_results repo fs procs (cmds.take (j + 1)) idx)) :=
  ⟨run_pipeline_no_halt repo fs procs cmds idx,
   fun j => run_pipeline_halt repo fs procs cmds idx j⟩

/-- Claim C3, witness: a three-step all-pass pipeline yields overall
success and the three results in input order. -/
theorem claim_C3_witness :
    (∀ j, j < ([{ name := "one", command := "c1" }, { name := "two", command := "c2" },
        { name := "three", command := "c3" }] : List CommandInfo).length →
      halts_at "/w" (fun _ => true) (fun _ => ProcBehavior.completed 0 "o" "" 1)
        [{ name := "one", command := "c1" }, { name := "two", command := "c2" },
         { name := "three", command := "c3" }] 0 j = false)
    ∧ run_pipeline_steps "/w" (fun _ => true) (fun _ => ProcBehavior.completed 0 "o" "" 1)
        [{ name := "one", command := "c1" }, { name := "two", command := "c2" },
         { name := "three", command := "c3" }] 0 =
      (true, map_step_results "/w" (fun _ => true) (fun _ => ProcBehavior.completed 0 "o" "" 1)
        [{ name := "one", command := "c1" }, { name := "two", command := "c2" },
         { name := "three", command := "c3" }] 0) :=
  ⟨by decide,
   (claim_C3 "/w" (fun _ => true) (fun _ => ProcBehavior.completed 0 "o" "" 1)
     [{ name := "one", command := "c1" }, { name := "two", command := "c2" },
      { name := "three", command := "c3" }] 0).1 (by decide)⟩

/-- Claim C4: for a process completing normally with exit code `rc`,
the result records `exit_code = rc` and
`succeeded = (rc == 0) or allow_failure`; so exit 0 always succeeds
and a non-zero exit succeeds exactly when `allow_failure` is true. -/
theorem claim_C4 (c : CommandInfo) (repo : String) (fs : String → Bool)
    (rc : Int) (out err : String) (dur : Nat)
    (hdir : fs (resolve_cwd repo c.working_dir) = true) :
    (execute_command c repo fs (ProcBehavior.completed rc out err dur)).2.return_code = some rc
    ∧ (execute_command c repo fs (ProcBehavior.completed rc out err dur)).2.success =
        (rc == 0 || c.allow_failure) := by
  constructor <;> simp [execute_command, hdir]

/-- Claim C4, witness: a concrete step exiting 7 with
`allow_failure = false`. -/
theorem claim_C4_witness :
    ((fun _ : String => true) (resolve_cwd "/r" "") = true)
    ∧ ((execute_command { name := "n", command := "c" } "/r" (fun _ => true)
          (ProcBehavior.completed 7 "o" "e" 3)).2.return_code = some 7
      ∧ (execute_command { name := "n", command := "c" } "/r" (fun _ => true)
          (ProcBehavior.completed 7 "o" "e" 3)).2.success =
        ((7 : Int) == 0 || ({ name := "n", command := "c" } : CommandInfo).allow_failure)) :=
  ⟨rfl, claim_C4 { name := "n", command := "c" } "/r" (fun _ => true) 7 "o" "e" 3 rfl⟩

/-- Claim C5: a step whose execution times out yields
`succeeded = allow_failure`, an absent `exit_code` and an error message
carrying the configured `timeout` value. -/
theorem claim_C5 (c : CommandInfo) (repo : String) (fs : String → Bool) (dur : Nat)
    (hdir : fs (resolve_cwd repo c.working_dir) = true) :
    (execute_command c repo fs (ProcBehavior.timedOut dur)).2.success = c.allow_failure
    ∧ (execute_command c repo fs (ProcBehavior.timedOut dur)).2.return_code = none
    ∧ (execute_command c repo fs (ProcBehavior.timedOut dur)).2.error =
        some ("명령어 실행 타임아웃 (" ++ toString c.timeout ++ "초)") := by
  refine ⟨?_, ?_, ?_⟩ <;> simp [execute_command, hdir]

/-- Claim C5, witness: a concrete step with `timeout = 1` timing
out. -/
theorem claim_C5_witness :
    ((fun _ : String => true) (resolve_cwd "/r" "") = true)
    ∧ ((execute_command { name := "n", command := "c", timeout := 1 } "/r" (fun _ => true)
          (ProcBehavior.timedOut 1)).2.success =
        ({ name := "n", command := "c", timeout := 1 } : CommandInfo).allow_failure
      ∧ (execute_command { name := "n", command := "c", timeout := 1 } "/r" (fun _ => true)
          (ProcBehavior.timedOut 1)).2.return_code = none
      ∧ (execute_command { name := "n", command := "c", timeout := 1 } "/r" (fun _ => true)
          (ProcBehavior.timedOut 1)).2.error =
        some ("명령어 실행 타임아웃 (" ++
          toString ({ name := "n", command := "c", timeout := 1 } : CommandInfo).timeout ++ "초)")) :=
  ⟨rfl, claim_C5 { name := "n", command := "c", timeout := 1 } "/r" (fun _ => true) 1 rfl⟩

/-- Claim C6, counterexample: the claim says a step entry missing
`run` fails with a message identifying the step by its 1-based
position.  The code identifies such a step by its name only: the
message for `[{name: "build"}]` contains no digit `1` at all, and the
identical message is produced when the same defective entry sits at
position 2. -/
theorem claim_C6_counterexample :
    get_command_list (ConfigDoc.withSteps [{ name := some "build" }]) =
      Except.error "단계 'build'에 실행 명령어가 없습니다."
    ∧ ("단계 'build'에 실행 명령어가 없습니다.".data.contains '1') = false
    ∧ get_command_list (ConfigDoc.withSteps
        [{ name := some "ok", run := some "x" }, { name := some "build" }]) =
      Except.error "단계 'build'에 실행 명령어가 없습니다." :=
  ⟨rfl, by decide, rfl⟩

/-- Claim C6, amended: the first step entry missing `name` fails
parsing with a message identifying the step by its 1-based position;
the first entry that has a `name` but no `run` fails with a message
identifying the step by that name (not by position). -/
theorem claim_C6_amended (pre : List RawStep) (s : RawStep) (post : List RawStep)
    (hpre : ∀ t ∈ pre, t.name.isSome ∧ t.run.isSome) :
    (s.name = none →
      get_command_list (ConfigDoc.withSteps (pre ++ s :: post)) =
        Except.error ("단계 " ++ toString (pre.length + 1) ++ "에 이름이 없습니다."))
    ∧ (∀ nm, s.name = some nm → s.run = none →
      get_command_list (ConfigDoc.withSteps (pre ++ s :: post)) =
        Except.error ("단계 '" ++ nm ++ "'에 실행 명령어가 없습니다.")) := by
  have hne := isEmpty_append_cons pre post s
  constructor
  · intro hn
    have hbase : build_commands (s :: post) (0 + pre.length) =
        Except.error ("단계 " ++ toString (pre.length + 1) ++ "에 이름이 없습니다.") := by
      unfold build_commands
      rw [hn]
      simp [Nat.zero_add]
    simp [get_command_list, hne,
      build_commands_error_append pre (s :: post) 0 _ hpre hbase]
  · intro nm hn hr
    have hbase : build_commands (s :: post) (0 + pre.length) =
        Except.error ("단계 '" ++ nm ++ "'에 실행 명령어가 없습니다.") := by
      unfold build_commands
      rw [hn, hr]
    simp [get_command_list, hne,
      build_commands_error_append pre (s :: post) 0 _ hpre hbase]

/-- Claim C6, witness: the amended theorem applied to the spec's own
test document, a one-element steps list whose entry has a name but no
`run`. -/
theorem claim_C6_amended_witness :
    (∀ t ∈ ([] : List RawStep), t.name.isSome ∧ t.run.isSome)
    ∧ get_command_list (ConfigDoc.withSteps ([] ++ ({ name := some "build" } : RawStep) :: [])) =
        Except.error ("단계 '" ++ "build" ++ "'에 실행 명령어가 없습니다.") :=
  ⟨by decide,
   (claim_C6_amended [] { name := some "build" } [] (by decide)).2 "build" rfl rfl⟩

/-- Claim C7: a step whose resolved working directory does not exist
returns, independently of the process behaviour (no process is
launched), `succeeded = false` even with `allow_failure = true`, a
missing-directory error, no `exit_code`, empty stdout and duration
0. -/
theorem claim_C7 (c : CommandInfo) (repo : String) (fs : String → Bool) (b : ProcBehavior)
    (hmiss : fs (resolve_cwd repo c.working_dir) = false) :
    execute_command c repo fs b =
      (false,
        { name := c.name, success := false,
          error := some ("작업 디렉토리가 존재하지 않습니다: " ++ resolve_cwd repo c.working_dir),
          stdout := "",
          stderr := "작업 디렉토리가 존재하지 않습니다: " ++ resolve_cwd repo c.working_dir,
          duration := 0 }) := by
  simp [execute_command, hmiss]

/-- Claim C7, witness: a concrete step with `allow_failure = true` and
a missing working directory. -/
theorem claim_C7_witness :
    ((fun _ : String => false) (resolve_cwd "/p" "sub") = false)
    ∧ execute_command
        { name := "m", command := "c", working_dir := "sub", allow_failure := true } "/p"
        (fun _ => false) (ProcBehavior.completed 0 "" "" 1) =
      (false,
        { name := "m", success := false,
          error := some ("작업 디렉토리가 존재하지 않습니다: " ++ resolve_cwd "/p" "sub"),
          stdout := "",
          stderr := "작업 디렉토리가 존재하지 않습니다: " ++ resolve_cwd "/p" "sub",
          duration := 0 }) :=
  ⟨rfl,
   claim_C7 { name := "m", command := "c", working_dir := "sub", allow_failure := true }
     "/p" (fun _ => false) (ProcBehavior.completed 0 "" "" 1) rfl⟩

/-- Claim C8: parsing a non-empty steps list whose entries all carry
`name` and `run` succeeds and returns the commands in document order;
an entry with only `name` and `run` gets the defaults
`working_dir = ""`, `allow_failure = false`, `timeout = 300`. -/
theorem claim_C8 :
    (∀ (steps : List RawStep), steps ≠ [] →
      (∀ s ∈ steps, s.name.isSome ∧ s.run.isSome) →
      get_command_list (ConfigDoc.withSteps steps) =
        Except.ok (steps.map step_to_command))
    ∧ (∀ nm rn : String,
        step_to_command { name := some nm, run := some rn } =
          { name := nm, command := rn, working_dir := "", allow_failure := false,
            timeout := 300 }) := by
  constructor
  · intro steps hne hval
    have hemp : steps.isEmpty = false := by
      cases steps with
      | nil => exact absurd rfl hne
      | cons a l => rfl
    simp [get_command_list, hemp, build_commands_valid steps 0 hval]
  · intro nm rn
    rfl

/-- Claim C8, witness: a concrete one-entry document with only `name`
and `run` present. -/
theorem claim_C8_witness :
    (([{ name := some "a", run := some "r" }] : List RawStep) ≠ []
      ∧ (∀ s ∈ ([{ name := some "a", run := some "r" }] : List RawStep),
          s.name.isSome ∧ s.run.isSome))
    ∧ get_command_list (ConfigDoc.withSteps [{ name := some "a", run := some "r" }]) =
        Except.ok (([{ name := some "a", run := some "r" }] : List RawStep).map step_to_command) :=
  ⟨⟨by decide, by decide⟩,
   claim_C8.1 [{ name := some "a", run := some "r" }] (by decide) (by decide)⟩

/-- Claim C9: `execute_command` never lets an exception escape — the
exception-explicit embedding is `Except.ok` of the plain result on
every input — and `get_command_list` likewise yields an error value or
a command list, never a propagated exception. -/
theorem claim_C9 :
    (∀ (c : CommandInfo) (repo : String) (fs : String → Bool) (b : ProcBehavior),
      execute_command_exc c repo fs b = Except.ok (execute_command c repo fs b))
    ∧ (∀ config : ConfigDoc,
        (∃ commands, get_command_list config = Except.ok commands)
        ∨ (∃ msg, get_command_list config = Except.error msg)) := by
  constructor
  · intro c repo fs b
    cases h : fs (resolve_cwd repo c.working_dir) <;> cases b <;>
      simp [execute_command, execute_command_exc, popen_communicate, h]
  · intro config
    cases hg : get_command_list config with
    | error msg => exact Or.inr ⟨msg, rfl⟩
    | ok commands => exact Or.inl ⟨commands, rfl⟩

/-- Claim C10: the runner halts after a step exactly when the
executor's returned success flag is false and the step's
`allow_failure` is false; consequently a concrete pipeline whose first
step has a missing working directory and `allow_failure = true` runs
its second step and finishes with overall success true while its
result list holds a result with `succeeded = false`. -/
theorem claim_C10 :
    (∀ (repo : String) (fs : String → Bool) (procs : Nat → ProcBehavior)
        (c : CommandInfo) (rest : List CommandInfo) (idx : Nat),
      ((execute_command c repo fs (procs idx)).1 = false ∧ c.allow_failure = false →
        run_pipeline_steps repo fs procs (c :: rest) idx =
          (false, [(execute_command c repo fs (procs idx)).2]))
      ∧ (((execute_command c repo fs (procs idx)).1 = true ∨ c.allow_failure = true) →
        run_pipeline_steps repo fs procs (c :: rest) idx =
          ((run_pipeline_steps repo fs procs rest (idx + 1)).1,
            (execute_command c repo fs (procs idx)).2 ::
              (run_pipeline_steps repo fs procs rest (idx + 1)).2)))
    ∧ ((run_pipeline_steps "/home/r" (fun p => p == "/home/r")
          (fun _ => ProcBehavior.completed 0 "po" "pe" 2)
          [{ name := "skip", command := "k", working_dir := "gone", allow_failure := true,
             timeout := 60 },
           { name := "fin", command := "f" }] 0).1 = true
       ∧ ((run_pipeline_steps "/home/r" (fun p => p == "/home/r")
          (fun _ => ProcBehavior.completed 0 "po" "pe" 2)
          [{ name := "skip", command := "k", working_dir := "gone", allow_failure := true,
             timeout := 60 },
           { name := "fin", command := "f" }] 0).2.map StepResult.success) = [false, true]) := by
  constructor
  · intro repo fs procs c rest idx
    constructor
    · rintro ⟨h1, h2⟩
      simp only [run_pipeline_steps]
      rw [h1, h2]
      simp
    · intro h
      simp only [run_pipeline_steps]
      rcases h with h | h <;> rw [h] <;> simp
  · exact ⟨by decide, by decide⟩

/-- Claim C10, witness: the halt direction applied to a concrete
one-step pipeline whose step fails (missing directory) with
`allow_failure = false`. -/
theorem claim_C10_witness :
    ((execute_command { name := "w", command := "c" } "/q" (fun _ => false)
        ((fun _ => ProcBehavior.completed 0 "" "" 1) 0)).1 = false
      ∧ ({ name := "w", command := "c" } : CommandInfo).allow_failure = false)
    ∧ run_pipeline_steps "/q" (fun _ => false) (fun _ => ProcBehavior.completed 0 "" "" 1)
        [{ name := "w", command := "c" }] 0 =
      (false, [(execute_command { name := "w", command := "c" } "/q" (fun _ => false)
        ((fun _ => ProcBehavior.completed 0 "" "" 1) 0)).2]) :=
  ⟨by decide,
   (claim_C10.1 "/q" (fun _ => false) (fun _ => ProcBehavior.completed 0 "" "" 1)
     { name := "w", command := "c" } [] 0).1 (by decide)⟩
